import Mathlib

/-! Verification of the tarantool-module connection core against its
natural-language specification.

The Rust sources are shallowly embedded below:
* `src/tarantool/src/fiber/async/timeout.rs` — the `Timeout` combinator
  (`timeout`, `Timeout::poll`); instants and durations are modelled as
  nanosecond counts (`Nat`).
* `src/src/net_box/send_queue.rs` and
  `src/tarantool/src/net_box/send_queue.rs` — `SendQueue` (`send`,
  `next_sync`, `flush_to_stream`) and the free function `write_to_buffer`.
  `Cursor<Vec<u8>>` is modelled by `WCursor` (an explicit byte list plus a
  write position, writes overwrite in place and extend at the end, exactly
  as `impl Write for Cursor<Vec<u8>>` does).
* `src/src/net_box/mod.rs` — `Conn::next_sync`.
* `src/src/net_box/recv_queue.rs` — the `cond_map` bookkeeping of
  `RecvQueue::recv`.
* `src/tarantool/src/network/client/mod.rs` — connection `State`, the
  `handle_result!` fatal-error macro, the `FirstU32` branch of the
  `receiver` worker, the on-drop cleanup of `Client::send`, and
  `check_state`.  The `Protocol` state machine itself is not among the
  provided sources; the single operation of it that is needed
  (`send_request`) is modelled from the spec and marked as such.

Bytes are `Nat`s (< 256 in every byte list the code produces); sync tags
are `Nat`s reduced `% 2^64` exactly where the Rust `u64` arithmetic wraps.
-/

/-- Result of polling a future once: either the value is ready or the
future is pending.  Mirrors `std::task::Poll`. -/
inductive Poll (α : Type) : Type
  | ready (v : α)
  | pending
deriving DecidableEq

/-- Error returned by `Timeout` when the deadline fired
(`struct Expired` in `fiber/async/timeout.rs`). -/
inductive Expired : Type
  | mk
deriving DecidableEq

/-- Largest instant representable by `std::time::Instant` (a `timespec`
with `i64` seconds), in nanoseconds.  `Instant::checked_add` returns
`None` beyond this point. -/
def instantMaxNanos : Nat := (2 ^ 63 - 1) * 1000000000 + 999999999

/-- `Duration::MAX` (`u64::MAX` seconds plus `999_999_999` nanoseconds),
in nanoseconds. -/
def durationMaxNanos : Nat := (2 ^ 64 - 1) * 1000000000 + 999999999

/-- The fallback offset used by `timeout` when `now + duration`
overflows: 30 years, following the tokio convention cited in the source
(`Duration::from_secs(60 * 60 * 24 * 365 * 30)`). -/
def thirtyYearsNanos : Nat := 946080000 * 1000000000

/-- `Instant::checked_add`: `some (now + d)` while it stays representable,
`none` on overflow. -/
def instantCheckedAdd (now d : Nat) : Option Nat :=
  if now + d ≤ instantMaxNanos then some (now + d) else none

/-- Deadline computed by `timeout(timeout, f)` in `timeout.rs`:
`now.checked_add(timeout)` and, on overflow, `now + 30 years` (an
`Instant + Duration` addition that itself panics on overflow, hence the
`Option`: `none` models a construction-time panic). -/
def timeoutMk (now dur : Nat) : Option Nat :=
  match instantCheckedAdd now dur with
  | some deadline => some deadline
  | none => instantCheckedAdd now thirtyYearsNanos

/-- One poll of `Timeout::poll` (`timeout.rs` lines 66-81): the inner
future is polled first (its outcome is the `inner` argument); a ready
value is returned as `Ok` regardless of the clock; otherwise the result
is `Err(Expired)` exactly when the current instant strictly exceeds the
deadline, and `Pending` otherwise. -/
def timeoutPoll {α : Type} (inner : Poll α) (now deadline : Nat) :
    Poll (Except Expired α) :=
  match inner with
  | Poll.ready v => Poll.ready (Except.ok v)
  | Poll.pending =>
    if deadline < now then Poll.ready (Except.error Expired.mk) else Poll.pending

/-- Errors of the async client (`network/client/mod.rs`, `enum Error`)
together with the `net_box` error cases the send/recv queues produce.
Each constructor carries the display payload used by `to_string()`. -/
inductive CError : Type
  | tcp (s : String)
  | io (s : String)
  | protocol (s : String)
  | closedWithErr (s : String)
  | other (s : String)
deriving DecidableEq

/-- `Display` of `Error` as derived by `thiserror` in
`network/client/mod.rs`. -/
def CError.toString : CError → String
  | CError.tcp s => "tcp stream error: " ++ s
  | CError.io s => "io error: " ++ s
  | CError.protocol s => "protocol error: " ++ s
  | CError.closedWithErr s => "closed with error: " ++ s
  | CError.other s => s

/-- A `Cursor<Vec<u8>>`: the underlying byte vector plus the write
position.  `write` overwrites bytes at the position, zero-extending the
gap first when the position lies past the end (exactly the semantics of
`impl Write for Cursor<Vec<u8>>`); `set_position` does not truncate the
vector. -/
structure WCursor : Type where
  data : List Nat
  pos : Nat
deriving DecidableEq

/-- Write `bs` at the cursor position: overwrite in place, extend at the
end, advance the position by `bs.length`. -/
def WCursor.write (c : WCursor) (bs : List Nat) : WCursor :=
  let d := if c.data.length < c.pos
    then c.data ++ List.replicate (c.pos - c.data.length) 0
    else c.data
  { data := d.take c.pos ++ bs ++ d.drop (c.pos + bs.length)
    pos := c.pos + bs.length }

/-- `rmp::encode::write_u32`: marker byte `0xce` followed by the four
big-endian bytes of the value truncated to `u32` (the call sites pass
`(… ) as u32`, hence the `% 2^32`). -/
def encodeU32 (n : Nat) : List Nat :=
  [206, n % 2 ^ 32 / 2 ^ 24, n % 2 ^ 32 / 2 ^ 16 % 256,
   n % 2 ^ 32 / 2 ^ 8 % 256, n % 2 ^ 32 % 256]

/-- `rmp::decode::read_u32`: expects the `0xce` marker and reads four
big-endian bytes; anything else is a decode failure (`none`). -/
def decodeU32 : List Nat → Option Nat
  | 206 :: b3 :: b2 :: b1 :: b0 :: _ =>
    some (((b3 * 256 + b2) * 256 + b1) * 256 + b0)
  | _ => none

/-- One complete wire frame for a payload: the fixed-width msgpack `u32`
length followed by the payload bytes. -/
def frame (p : List Nat) : List Nat := encodeU32 p.length ++ p

/-- `write_to_buffer` from `send_queue.rs` (identical in both variants):
writes a 5-byte `u32` length placeholder, runs the payload producer, and
backpatches the placeholder with the number of payload bytes.  The
producer is modelled by the byte list it writes at the cursor plus an
optional error it then returns; on error the buffer is returned as the
producer left it (the rollback is done by the caller, `SendQueue.send`).
-/
def write_to_buffer (buffer : WCursor) (prodBytes : List Nat)
    (prodErr : Option CError) : WCursor × Option CError :=
  let msg_start_offset := buffer.pos
  let b1 := buffer.write (encodeU32 0)
  let payload_start_offset := b1.pos
  let b2 := b1.write prodBytes
  match prodErr with
  | some e => (b2, some e)
  | none =>
    let payload_end_offset := b2.pos
    let b3 : WCursor := { b2 with pos := msg_start_offset }
    let b4 := b3.write (encodeU32 (payload_end_offset - payload_start_offset))
    ({ b4 with pos := payload_end_offset }, none)

/-- The `SendQueue` state (`send_queue.rs`): double buffer, sync counter,
active flag.  Locks, condition variables and the flush-interval logic of
the newer variant affect only scheduling, not the byte-level state, and
are not represented. -/
structure SendQueue : Type where
  is_active : Bool
  sync : Nat
  front_buffer : WCursor
  back_buffer : WCursor
deriving DecidableEq

/-- `SendQueue::new` (the capacity argument only pre-allocates). -/
def SendQueue.new : SendQueue :=
  { is_active := true, sync := 0
    front_buffer := { data := [], pos := 0 }
    back_buffer := { data := [], pos := 0 } }

/-- `SendQueue::next_sync` (both variants): increment the `u64` counter
and return the new value.  Returns (new queue, allocated sync). -/
def SendQueue.next_sync (q : SendQueue) : SendQueue × Nat :=
  let s := (q.sync + 1) % 2 ^ 64
  ({ q with sync := s }, s)

/-- `SendQueue::send`: allocate a sync, write one frame into the back
buffer via `write_to_buffer`, and on producer error roll the write
position back to the pre-call offset (the underlying vector is not
truncated, exactly as in the source). -/
def SendQueue.send (q : SendQueue) (prodBytes : List Nat)
    (prodErr : Option CError) : SendQueue × Except CError Nat :=
  let qs := q.next_sync
  let offset := qs.1.back_buffer.pos
  let wr := write_to_buffer qs.1.back_buffer prodBytes prodErr
  match wr.2 with
  | some e =>
    ({ qs.1 with back_buffer := { wr.1 with pos := offset } }, Except.error e)
  | none => ({ qs.1 with back_buffer := wr.1 }, Except.ok qs.2)

/-- One call of `SendQueue::flush_to_stream` against a stream that
accepts every byte: if the queue was closed the call fails with the
timed-out error; if data is available the buffers are swapped and the
whole front vector (`buffer.get_ref()`, not just the prefix up to the
write position) is written to the stream and the front buffer cleared;
with an empty back buffer the real call blocks on `swap_cond`, modelled
here as emitting nothing. -/
def SendQueue.flush_to_stream (q : SendQueue) :
    SendQueue × Except CError (List Nat) :=
  if q.is_active = false then (q, Except.error (CError.io "timed out"))
  else if q.back_buffer.pos > 0 then
    ({ q with back_buffer := q.front_buffer, front_buffer := { data := [], pos := 0 } },
     Except.ok q.back_buffer.data)
  else (q, Except.ok [])

/-- Run a list of successful sends (each given by the payload bytes its
producer writes). -/
def runSends (q : SendQueue) : List (List Nat) → SendQueue
  | [] => q
  | p :: ps => runSends (q.send p none).1 ps

/-- Run `n` flush calls, concatenating everything written to the stream;
a flush error stops the loop. -/
def runFlushes : SendQueue → Nat → List Nat
  | _, 0 => []
  | q, n + 1 =>
    let r := q.flush_to_stream
    match r.2 with
    | Except.ok bs => bs ++ runFlushes r.1 n
    | Except.error _ => []

/-- `SendQueue::next_sync` as a pure step on the counter state:
`(new state, returned sync)`.  The counter is a `u64`, so the increment
wraps at `2^64`. -/
def sendQueueNextSync (s : Nat) : Nat × Nat :=
  ((s + 1) % 2 ^ 64, (s + 1) % 2 ^ 64)

/-- `Conn::next_sync` (`net_box/mod.rs` lines 154-158) as a pure step on
the counter state: it returns the current counter and then stores the
incremented value, so the first allocated sync is the initial `0`. -/
def connNextSync (s : Nat) : Nat × Nat :=
  ((s + 1) % 2 ^ 64, s)

/-- The list of sync tags produced by `n` successive allocation calls
starting from counter state `s`, for a step function returning
`(new state, allocated sync)`. -/
def syncValues (step : Nat → Nat × Nat) (s : Nat) : Nat → List Nat
  | 0 => []
  | n + 1 => (step s).2 :: syncValues step (step s).1 n

/-- Connection state of the async client (`network/client/mod.rs`,
`enum State`). -/
inductive ConnState : Type
  | alive
  | closedManually
  | closedWithError (msg : String)
deriving DecidableEq

/-- Association-list view of a `HashMap` keyed by sync tags.  Keys of the
real map are unique; lemmas that need it take a `Nodup` hypothesis on the
key list. -/
def tblLookup (tbl : List (Nat × Nat)) (k : Nat) : Option Nat :=
  (tbl.find? (fun p => p.1 == k)).map (fun p => p.2)

/-- `HashMap::remove`: drop the (unique) entry with the given key. -/
def tblRemove (tbl : List (Nat × Nat)) (k : Nat) : List (Nat × Nat) :=
  tbl.eraseP (fun p => p.1 == k)

/-- `HashMap::insert` for a key not yet present (every insertion in the
client uses a freshly allocated sync). -/
def tblInsert (tbl : List (Nat × Nat)) (k v : Nat) : List (Nat × Nat) :=
  (k, v) :: tbl

/-- The part of `ClientInner` the fatal-error and cleanup paths touch:
the connection state and the pending-response table `awaiting_response`
(sync → oneshot sender, the latter modelled by an opaque waiter id). -/
structure ClientInner : Type where
  state : ConnState
  awaitingResponse : List (Nat × Nat)
deriving DecidableEq

/-- The `handle_result!` error branch (`network/client/mod.rs` lines
295-313): set the state to `ClosedWithError(err.to_string())`, drain the
pending table, and send `ClosedWithErr(str_err.clone())` to every drained
waiter.  Returns the new shared state and the list of
(waiter, message) sends performed before the worker returns. -/
def handleResult (c : ClientInner) (e : CError) :
    ClientInner × List (Nat × CError) :=
  let str_err := e.toString
  ({ state := ConnState.closedWithError e.toString, awaitingResponse := [] },
   c.awaitingResponse.map (fun p => (p.2, CError.closedWithErr str_err)))

/-- `SizeHint` of the protocol state machine. -/
inductive SizeHint : Type
  | firstU32
  | hint (n : Nat)
deriving DecidableEq

/-- Outcome of one iteration of the `receiver` worker: either continue
the loop with a new size hint, or perform the fatal-error shutdown and
exit. -/
inductive RecvStep : Type
  | cont (h : SizeHint) (c : ClientInner)
  | exit (c : ClientInner) (msgs : List (Nat × CError))
deriving DecidableEq

/-- The `SizeHint::FirstU32` branch of the `receiver` worker
(`network/client/mod.rs` lines 370-385), with the result of
`rmp::decode::read_u32` on the 5 bytes read passed in: a decode failure
is fatal; a decoded length `n > 0` continues with `Hint n`; `n = 0` is
rejected as the fatal error "unexpected zero message length". -/
def receiverFirstU32 (c : ClientInner) (decoded : Except String Nat) :
    RecvStep :=
  match decoded with
  | Except.error e =>
    let r := handleResult c (CError.protocol e)
    RecvStep.exit r.1 r.2
  | Except.ok n =>
    if n > 0 then RecvStep.cont (SizeHint.hint n) c
    else
      let r := handleResult c (CError.other "unexpected zero message length")
      RecvStep.exit r.1 r.2

/-- The on-drop cleanup hook registered by `Client::send`
(`network/client/mod.rs` lines 206-208): when the future returned by
`send` is dropped at its await point, `awaiting_response.remove(&sync)`
runs. -/
def sendOnDrop (c : ClientInner) (sync : Nat) : ClientInner :=
  { c with awaitingResponse := tblRemove c.awaitingResponse sync }

/-- The `cond_map` of `RecvQueue` (`net_box/recv_queue.rs`), mapping sync
tags to the per-request condition variables (modelled by opaque ids). -/
structure RecvQueue : Type where
  condMap : List (Nat × Nat)
deriving DecidableEq

/-- The timed-out path of `RecvQueue::recv` (`recv_queue.rs` lines
44-72): the fresh cond is registered under `sync`; when
`wait_timeout` returns unsignalled the entry is removed again and the
call fails with the timed-out I/O error. -/
def RecvQueue.recvTimedOut (q : RecvQueue) (sync cond : Nat) :
    RecvQueue × CError :=
  let q1 : RecvQueue := { condMap := tblInsert q.condMap sync cond }
  ({ condMap := tblRemove q1.condMap sync }, CError.io "timed out")

/-- The protocol state touched by `send_request`.

Modelled from the spec: `Protocol` (`network/protocol/mod.rs`) is not
among the provided sources; per spec §4.B it holds the outgoing byte
buffer and, via the sync registry, a monotonically increasing sync
counter. -/
structure ProtocolM : Type where
  sync : Nat
  outgoing : List Nat
deriving DecidableEq

/-- Modelled from the spec: `Protocol::send_request`
(`network/protocol/mod.rs`, not among the provided sources).  Spec §4.B:
allocate the next sync tag, append the encoded request to the outgoing
buffer, return the sync. -/
def ProtocolM.send_request (p : ProtocolM) (reqBytes : List Nat) :
    ProtocolM × Nat :=
  let sync := p.sync + 1
  ({ sync := sync, outgoing := p.outgoing ++ reqBytes }, sync)

/-- The client state observed by `Client::send`. -/
structure ClientM : Type where
  state : ConnState
  protocol : ProtocolM
  awaitingResponse : List (Nat × Nat)
deriving DecidableEq

/-- How a `Client::send` call starts. -/
inductive SendStart : Type
  | panics
  | fails (e : CError) (c : ClientM)
  | proceeds (c : ClientM) (sync : Nat)
deriving DecidableEq

/-- The synchronous head of `Client::send` (`network/client/mod.rs` lines
183-202): `check_state` matches on the state — `Alive` proceeds through
`protocol.send_request` and inserts the oneshot waiter `tx` under the new
sync; `ClosedManually` hits `unreachable!()` (a panic); `ClosedWithError`
returns `Err(ClosedWithErr(err))` without touching the protocol or the
pending table.  `ping`, `call`, `eval` and `execute` are all routed
through this function. -/
def clientSendStart (c : ClientM) (reqBytes : List Nat) (tx : Nat) :
    SendStart :=
  match c.state with
  | ConnState.alive =>
    let pr := c.protocol.send_request reqBytes
    SendStart.proceeds
      { c with protocol := pr.1
               awaitingResponse := tblInsert c.awaitingResponse pr.2 tx }
      pr.2
  | ConnState.closedManually => SendStart.panics
  | ConnState.closedWithError err =>
    SendStart.fails (CError.closedWithErr err) c

/-- Concrete client used by the C9 counterexample: state
`ClosedManually`, fresh protocol, empty pending table. -/
def clientManuallyClosed : ClientM :=
  { state := ConnState.closedManually
    protocol := { sync := 0, outgoing := [] }
    awaitingResponse := [] }

/-- Concrete client used by the C9 witness: state
`ClosedWithError("boom")`, fresh protocol, empty pending table. -/
def clientErrClosed : ClientM :=
  { state := ConnState.closedWithError "boom"
    protocol := { sync := 0, outgoing := [] }
    awaitingResponse := [] }

lemma takeAppendLen (l1 l2 : List Nat) : (l1 ++ l2).take l1.length = l1 := by
  induction l1 with
  | nil => rfl
  | cons a t ih => simp [ih]

lemma dropAppendAdd (l1 l2 : List Nat) (n : Nat) :
    (l1 ++ l2).drop (l1.length + n) = l2.drop n := by
  induction l1 with
  | nil => simp
  | cons a t ih => simp [Nat.succ_add, ih]

lemma dropAllOfLenLe (l : List Nat) (n : Nat) (h : l.length ≤ n) :
    l.drop n = [] := by
  induction l generalizing n with
  | nil => simp
  | cons a t ih =>
    cases n with
    | zero => simp at h
    | succ m => simpa using ih m (by simpa using h)

lemma encodeU32_length (n : Nat) : (encodeU32 n).length = 5 := rfl

/-- Writing with the cursor at the end of the vector appends. -/
lemma wcWrite_at_end (d bs : List Nat) :
    WCursor.write { data := d, pos := d.length } bs =
      { data := d ++ bs, pos := d.length + bs.length } := by
  simp only [WCursor.write]
  simp [dropAllOfLenLe d (d.length + bs.length) (by omega)]

/-- Writing with the cursor strictly inside the vector overwrites in
place (no extension when the remainder is long enough). -/
lemma wcWrite_overwrite (pre post bs : List Nat) :
    WCursor.write { data := pre ++ post, pos := pre.length } bs =
      { data := pre ++ (bs ++ post.drop bs.length)
        pos := pre.length + bs.length } := by
  simp only [WCursor.write]
  have h1 : ¬ (pre ++ post).length < pre.length := by simp
  rw [if_neg h1, takeAppendLen, dropAppendAdd]
  simp

/-- A successful `write_to_buffer` with the cursor at the end of the
buffer appends exactly one complete frame and leaves the cursor at the
new end. -/
lemma dropEncodeU32 (m : Nat) (p : List Nat) : (encodeU32 m ++ p).drop 5 = p := by
  simp [encodeU32]

lemma write_to_buffer_ok (d p : List Nat) :
    write_to_buffer { data := d, pos := d.length } p none =
      ({ data := d ++ frame p, pos := d.length + (5 + p.length) }, none) := by
  have h1 : WCursor.write { data := d, pos := d.length } (encodeU32 0) =
      { data := d ++ encodeU32 0, pos := d.length + 5 } := by
    simpa using wcWrite_at_end d (encodeU32 0)
  have h2 : WCursor.write { data := d ++ encodeU32 0, pos := d.length + 5 } p =
      { data := (d ++ encodeU32 0) ++ p, pos := d.length + 5 + p.length } := by
    simpa [encodeU32_length] using wcWrite_at_end (d ++ encodeU32 0) p
  have h3 : WCursor.write { data := d ++ (encodeU32 0 ++ p), pos := d.length }
        (encodeU32 p.length) =
      { data := d ++ (encodeU32 p.length ++ p), pos := d.length + 5 } := by
    have := wcWrite_overwrite d (encodeU32 0 ++ p) (encodeU32 p.length)
    simpa [encodeU32_length, dropEncodeU32] using this
  simp only [write_to_buffer, h1, h2]
  have harg : d.length + 5 + p.length - (d.length + 5) = p.length := by omega
  rw [show ((d ++ encodeU32 0) ++ p) = d ++ (encodeU32 0 ++ p) from by
        simp [List.append_assoc],
      harg, h3]
  simp [frame]
  omega

lemma frame_length (p : List Nat) : (frame p).length = 5 + p.length := by
  simp [frame, encodeU32_length]

/-- A successful `SendQueue::send` advances the sync counter and appends
one frame to the back buffer. -/
lemma send_ok (q : SendQueue) (p : List Nat)
    (h : q.back_buffer.pos = q.back_buffer.data.length) :
    q.send p none =
      ({ q with sync := (q.sync + 1) % 2 ^ 64
                back_buffer := { data := q.back_buffer.data ++ frame p
                                 pos := q.back_buffer.data.length + (5 + p.length) } },
       Except.ok ((q.sync + 1) % 2 ^ 64)) := by
  obtain ⟨act, sy, fb, bd, bp⟩ := q
  simp only at h
  subst h
  simp only [SendQueue.send, SendQueue.next_sync, write_to_buffer_ok]

/-- Running successful sends appends the corresponding frames in order
and touches nothing else observable. -/
lemma runSends_spec (ps : List (List Nat)) (q : SendQueue)
    (h : q.back_buffer.pos = q.back_buffer.data.length) :
    (runSends q ps).back_buffer.data
        = q.back_buffer.data ++ (ps.map frame).flatten
    ∧ (runSends q ps).back_buffer.pos
        = (runSends q ps).back_buffer.data.length
    ∧ (runSends q ps).front_buffer = q.front_buffer
    ∧ (runSends q ps).is_active = q.is_active := by
  induction ps generalizing q with
  | nil => exact ⟨by simp [runSends], by simpa [runSends] using h, rfl, rfl⟩
  | cons p ps ih =>
    rw [runSends, send_ok q p h]
    have h2 := ih { q with sync := (q.sync + 1) % 2 ^ 64
                           back_buffer := { data := q.back_buffer.data ++ frame p
                                            pos := q.back_buffer.data.length + (5 + p.length) } }
      (by simp [frame_length])
    refine ⟨?_, h2.2.1, h2.2.2.1, h2.2.2.2⟩
    rw [h2.1]
    simp

/-- Flushing an active queue with an empty back buffer emits nothing,
however often it is called. -/
lemma runFlushes_idle (n : Nat) (q : SendQueue) (ha : q.is_active = true)
    (hp : q.back_buffer.pos = 0) :
    runFlushes q n = [] := by
  induction n with
  | zero => rfl
  | succ m ih => simp [runFlushes, SendQueue.flush_to_stream, ha, hp, ih]

lemma syncValues_length (step : Nat → Nat × Nat) (s n : Nat) :
    (syncValues step s n).length = n := by
  induction n generalizing s with
  | zero => rfl
  | succ m ih => simp [syncValues, ih]

/-- The `i`-th sync allocated by `SendQueue::next_sync` from counter
state `s` is `s + i + 1`, as long as the `u64` counter does not wrap. -/
lemma syncValues_sq_getElem (s n i : Nat) (hi : i < n) (hn : s + n < 2 ^ 64) :
    (syncValues sendQueueNextSync s n)[i]? = some (s + i + 1) := by
  induction n generalizing s i with
  | zero => omega
  | succ m ih =>
    have hs : (s + 1) % 2 ^ 64 = s + 1 := Nat.mod_eq_of_lt (by omega)
    cases i with
    | zero =>
      simp only [syncValues, sendQueueNextSync, hs, List.getElem?_cons_zero,
        Nat.add_zero]
    | succ j =>
      have hrec := ih (s + 1) j (by omega) (by omega)
      simp only [syncValues, sendQueueNextSync, hs, List.getElem?_cons_succ]
      rw [show s + (j + 1) + 1 = s + 1 + j + 1 from by omega]
      exact hrec

/-- The `i`-th sync allocated by `Conn::next_sync` from counter state `s`
is `s + i` — the counter value before the increment. -/
lemma syncValues_conn_getElem (s n i : Nat) (hi : i < n) (hn : s + n ≤ 2 ^ 64) :
    (syncValues connNextSync s n)[i]? = some (s + i) := by
  induction n generalizing s i with
  | zero => omega
  | succ m ih =>
    cases i with
    | zero =>
      simp only [syncValues, connNextSync, List.getElem?_cons_zero, Nat.add_zero]
    | succ j =>
      have hs : (s + 1) % 2 ^ 64 = s + 1 := Nat.mod_eq_of_lt (by omega)
      have hrec := ih (s + 1) j (by omega) (by omega)
      simp only [syncValues, connNextSync, hs, List.getElem?_cons_succ]
      rw [show s + (j + 1) = s + 1 + j from by omega]
      exact hrec

lemma syncValues_sq_pairwise (n : Nat) (hn : n < 2 ^ 64) :
    (syncValues sendQueueNextSync 0 n).Pairwise (· < ·) := by
  rw [List.pairwise_iff_getElem]
  intro i j hi hj hij
  rw [syncValues_length] at hi hj
  have h1 := syncValues_sq_getElem 0 n i hi (by omega)
  have h2 := syncValues_sq_getElem 0 n j hj (by omega)
  rw [List.getElem?_eq_getElem (by rw [syncValues_length]; omega)] at h1 h2
  simp only [Option.some.injEq] at h1 h2
  omega

lemma syncValues_conn_pairwise (n : Nat) (hn : n ≤ 2 ^ 64) :
    (syncValues connNextSync 0 n).Pairwise (· < ·) := by
  rw [List.pairwise_iff_getElem]
  intro i j hi hj hij
  rw [syncValues_length] at hi hj
  have h1 := syncValues_conn_getElem 0 n i hi (by omega)
  have h2 := syncValues_conn_getElem 0 n j hj (by omega)
  rw [List.getElem?_eq_getElem (by rw [syncValues_length]; omega)] at h1 h2
  simp only [Option.some.injEq] at h1 h2
  omega

lemma tblLookup_not_mem (tbl : List (Nat × Nat)) (k : Nat)
    (h : k ∉ tbl.map Prod.fst) : tblLookup tbl k = none := by
  induction tbl with
  | nil => rfl
  | cons a t ih =>
    simp only [List.map_cons, List.mem_cons] at h
    push_neg at h
    have hne : (a.1 == k) = false := by simpa using fun he => h.1 he.symm
    simp [tblLookup, List.find?, hne]
    simpa [tblLookup] using ih h.2

/-- With unique keys, removing a key makes its lookup fail. -/
lemma tblLookup_remove_self (tbl : List (Nat × Nat)) (k : Nat)
    (h : (tbl.map Prod.fst).Nodup) : tblLookup (tblRemove tbl k) k = none := by
  induction tbl with
  | nil => rfl
  | cons a t ih =>
    simp only [List.map_cons, List.nodup_cons] at h
    by_cases hk : a.1 = k
    · have : tblRemove (a :: t) k = t := by
        simp [tblRemove, List.eraseP_cons, hk]
      rw [this]
      exact tblLookup_not_mem t k (hk ▸ h.1)
    · have hne : (a.1 == k) = false := by simpa using hk
      have : tblRemove (a :: t) k = a :: tblRemove t k := by
        simp [tblRemove, List.eraseP_cons, hne]
      rw [this]
      simp [tblLookup, List.find?, hne]
      simpa [tblLookup] using ih h.2

/-- Removing one key leaves every other key's lookup unchanged. -/
lemma tblLookup_remove_ne (tbl : List (Nat × Nat)) (k k2 : Nat)
    (h : k2 ≠ k) : tblLookup (tblRemove tbl k) k2 = tblLookup tbl k2 := by
  induction tbl with
  | nil => rfl
  | cons a t ih =>
    by_cases hk : a.1 = k
    · have he : tblRemove (a :: t) k = t := by
        simp [tblRemove, List.eraseP_cons, hk]
      have hne : (a.1 == k2) = false := by
        simpa using fun hc => h (by omega)
      rw [he]
      simp [tblLookup, List.find?, hne]
    · have hne : (a.1 == k) = false := by simpa using hk
      have he : tblRemove (a :: t) k = a :: tblRemove t k := by
        simp [tblRemove, List.eraseP_cons, hne]
      rw [he]
      by_cases h2 : a.1 = k2
      · simp [tblLookup, List.find?, h2]
      · have hne2 : (a.1 == k2) = false := by simpa using h2
        simp [tblLookup, List.find?, hne2]
        simpa [tblLookup] using ih

/-- As long as the current instant is at least 30 years from the end of
the `Instant` range, deadline construction produces a deadline for every
duration (no panic). -/
lemma timeoutMk_isSome (now dur : Nat)
    (h : now + thirtyYearsNanos ≤ instantMaxNanos) :
    (timeoutMk now dur).isSome = true := by
  by_cases hd : now + dur ≤ instantMaxNanos
  · simp [timeoutMk, instantCheckedAdd, hd]
  · simp [timeoutMk, instantCheckedAdd, hd, h]

/-- Claim C1, counterexample: the very first sync tag allocated by
`Conn::next_sync` (from the fresh counter `0` set in `Conn::new`) is `0`,
not `1` — the method returns the counter before incrementing it. -/
theorem c1_conn_first_sync_is_zero :
    syncValues connNextSync 0 1 = [0] ∧ (0 : Nat) ≠ 1 := by
  decide

/-- Claim C1 (amended): the sync tags allocated by successive calls are
strictly monotonically increasing, hence never repeated, as long as fewer
than `2^64` allocations are made; `SendQueue::next_sync` yields
`1, 2, 3, …` (the `i`-th allocated tag is `i + 1`, so the first is `1`),
while `Conn::next_sync` yields `0, 1, 2, …` (the `i`-th allocated tag is
`i`, so the first is `0`). -/
theorem c1_sync_monotonic (n i : Nat) (hi : i < n) (hn : n < 2 ^ 64) :
    (syncValues sendQueueNextSync 0 n)[i]? = some (i + 1)
    ∧ (syncValues connNextSync 0 n)[i]? = some i
    ∧ (syncValues sendQueueNextSync 0 n).Pairwise (· < ·)
    ∧ (syncValues connNextSync 0 n).Pairwise (· < ·) := by
  refine ⟨?_, ?_, syncValues_sq_pairwise n hn,
    syncValues_conn_pairwise n (by omega)⟩
  · simpa using syncValues_sq_getElem 0 n i hi (by omega)
  · simpa using syncValues_conn_getElem 0 n i hi (by omega)

/-- Witness for C1 at `n = 3`, `i = 0`. -/
theorem c1_sync_monotonic_witness :
    (0 < 3 ∧ 3 < 2 ^ 64)
    ∧ ((syncValues sendQueueNextSync 0 3)[0]? = some 1
        ∧ (syncValues connNextSync 0 3)[0]? = some 0
        ∧ (syncValues sendQueueNextSync 0 3).Pairwise (· < ·)
        ∧ (syncValues connNextSync 0 3).Pairwise (· < ·)) :=
  ⟨⟨by decide, by decide⟩, c1_sync_monotonic 3 0 (by decide) (by decide)⟩

/-- Claim C6: on every poll of a `Timeout` the inner future is polled
first (its outcome is the `inner` argument of `timeoutPoll`); a ready
inner value resolves `Ready(Ok(v))` even when the deadline has passed;
with a pending inner future the poll resolves `Ready(Err(Expired))` if
and only if the current instant strictly exceeds the deadline, and is
`Pending` otherwise. -/
theorem c6_timeout_poll (α : Type) (inner : Poll α) (now deadline : Nat) :
    (∀ v : α, inner = Poll.ready v →
        timeoutPoll inner now deadline = Poll.ready (Except.ok v))
    ∧ (inner = Poll.pending →
        ((timeoutPoll inner now deadline
            = Poll.ready (Except.error Expired.mk)) ↔ deadline < now))
    ∧ (inner = Poll.pending → ¬ deadline < now →
        timeoutPoll inner now deadline = Poll.pending) := by
  refine ⟨?_, ?_, ?_⟩
  · rintro v rfl
    rfl
  · rintro rfl
    by_cases h : deadline < now
    · simp [timeoutPoll, h]
    · simp [timeoutPoll, h]
  · rintro rfl h
    simp [timeoutPoll, h]

/-- Witness for C6: a ready value wins even past the deadline
(`now = 10 > deadline = 3`); a pending future past the deadline expires;
a pending future before the deadline stays pending. -/
theorem c6_timeout_poll_witness :
    (Poll.ready 5 = Poll.ready 5
      ∧ timeoutPoll (Poll.ready 5) 10 3 = Poll.ready (Except.ok 5))
    ∧ timeoutPoll (Poll.pending : Poll Nat) 10 3
        = Poll.ready (Except.error Expired.mk)
    ∧ timeoutPoll (Poll.pending : Poll Nat) 3 10 = Poll.pending :=
  ⟨⟨rfl, (c6_timeout_poll Nat (Poll.ready 5) 10 3).1 5 rfl⟩,
   ((c6_timeout_poll Nat Poll.pending 10 3).2.1 rfl).mpr (by decide),
   (c6_timeout_poll Nat Poll.pending 3 10).2.2 rfl (by decide)⟩

/-- Claim C7: as long as the current instant is more than 30 years from
the end of the `Instant` range (always true in practice), constructing a
timeout never panics for any duration: the deadline is `now + duration`
when that is representable and otherwise saturates to the far-future
instant `now + 30 years`; in particular `timeout(Duration::MAX, f)`
constructs, and polling any timeout whose inner future is immediately
ready yields `Ready(Ok(value))`. -/
theorem c7_timeout_saturates (now dur : Nat)
    (h : now + thirtyYearsNanos ≤ instantMaxNanos) :
    (timeoutMk now dur).isSome = true
    ∧ (now + dur ≤ instantMaxNanos → timeoutMk now dur = some (now + dur))
    ∧ (instantMaxNanos < now + dur →
        timeoutMk now dur = some (now + thirtyYearsNanos))
    ∧ (timeoutMk now durationMaxNanos).isSome = true
    ∧ ∀ (v deadline : Nat),
        timeoutPoll (Poll.ready v) now deadline = Poll.ready (Except.ok v) := by
  refine ⟨timeoutMk_isSome now dur h, ?_, ?_,
    timeoutMk_isSome now durationMaxNanos h, fun v deadline => rfl⟩
  · intro hd
    simp [timeoutMk, instantCheckedAdd, hd]
  · intro hd
    have hd2 : ¬ now + dur ≤ instantMaxNanos := by omega
    simp [timeoutMk, instantCheckedAdd, hd2, h]

/-- Witness for C7, scenario S7: at `now = 0`,
`timeout(Duration::MAX, …)` constructs, and one poll of a ready inner
future yields `Ready(Ok(1))`. -/
theorem c7_timeout_saturates_witness :
    (0 + thirtyYearsNanos ≤ instantMaxNanos)
    ∧ (timeoutMk 0 durationMaxNanos).isSome = true
    ∧ timeoutPoll (Poll.ready 1) 0 thirtyYearsNanos
        = Poll.ready (Except.ok 1) :=
  ⟨by decide,
   (c7_timeout_saturates 0 durationMaxNanos (by decide)).2.2.2.1,
   (c7_timeout_saturates 0 durationMaxNanos (by decide)).2.2.2.2 1
     thirtyYearsNanos⟩

/-- Helper: `decodeU32` on an explicit five-byte head. -/
lemma decodeU32_cons (b3 b2 b1 b0 : Nat) (rest : List Nat) :
    decodeU32 (206 :: b3 :: b2 :: b1 :: b0 :: rest)
      = some (((b3 * 256 + b2) * 256 + b1) * 256 + b0) := rfl

/-- Claim C4: for every sequence of successful `SendQueue::send` calls
followed by `flush_to_stream` calls, the bytes written to the output
stream are exactly the frames appended by the sends, in FIFO order, with
nothing dropped, duplicated or reordered: the first flush drains
everything and subsequent flushes (which in the real code would block on
`swap_cond`) add nothing. -/
theorem c4_flush_fifo (ps : List (List Nat)) (m : Nat) :
    runFlushes (runSends SendQueue.new ps) (m + 1) = (ps.map frame).flatten := by
  obtain ⟨hdata, hpos, hfront, hact⟩ := runSends_spec ps SendQueue.new rfl
  rw [show SendQueue.new.back_buffer.data = [] from rfl, List.nil_append] at hdata
  rw [show SendQueue.new.front_buffer = { data := [], pos := 0 } from rfl] at hfront
  rw [show SendQueue.new.is_active = true from rfl] at hact
  by_cases hnil : (ps.map frame).flatten = []
  · have hp0 : (runSends SendQueue.new ps).back_buffer.pos = 0 := by
      rw [hpos, hdata, hnil]
      rfl
    rw [hnil]
    exact runFlushes_idle (m + 1) _ hact hp0
  · have hp : (runSends SendQueue.new ps).back_buffer.pos > 0 := by
      rw [hpos, hdata]
      exact List.length_pos.mpr hnil
    simp only [runFlushes, SendQueue.flush_to_stream, hact, hp, if_true, hdata]
    have hidle :
        runFlushes
          { is_active := true,
            sync := (runSends SendQueue.new ps).sync,
            front_buffer := { data := [], pos := 0 },
            back_buffer := (runSends SendQueue.new ps).front_buffer }
          m = [] :=
      runFlushes_idle m _ rfl (by simp [hfront])
    simp [hidle]

/-- Claim C5: every successful `write_to_buffer` call appends exactly one
complete frame — a fixed-width msgpack `u32` length followed by the
payload — whose encoded length decodes back to the exact payload byte
count; consequently the back buffer after any sequence of successful
sends is the concatenation of complete frames, with no partial frame. -/
theorem c5_framing (buffer : WCursor) (p : List Nat)
    (h1 : buffer.pos = buffer.data.length) (h2 : p.length < 2 ^ 32) :
    (write_to_buffer buffer p none).1.data = buffer.data ++ frame p
    ∧ decodeU32 (frame p) = some p.length
    ∧ ∀ ps : List (List Nat),
        (runSends SendQueue.new ps).back_buffer.data = (ps.map frame).flatten := by
  obtain ⟨bd, bp⟩ := buffer
  simp only at h1
  subst h1
  refine ⟨by rw [write_to_buffer_ok], ?_, ?_⟩
  · simp only [frame, encodeU32, List.cons_append, List.nil_append, decodeU32_cons]
    congr 1
    omega
  · intro ps
    simpa using (runSends_spec ps SendQueue.new rfl).1

/-- Witness for C5: an empty buffer and the one-byte payload `[7]`. -/
theorem c5_framing_witness :
    ((0 : Nat) = ([] : List Nat).length ∧ ([7] : List Nat).length < 2 ^ 32)
    ∧ (write_to_buffer { data := [], pos := 0 } [7] none).1.data
        = [] ++ frame [7]
    ∧ decodeU32 (frame [7]) = some ([7] : List Nat).length :=
  ⟨⟨rfl, by decide⟩,
   (c5_framing { data := [], pos := 0 } [7] rfl (by decide)).1,
   (c5_framing { data := [], pos := 0 } [7] rfl (by decide)).2.1⟩

/-- Claim C10 (exhibit of the divergence): a `SendQueue::send` whose
producer writes the byte `0xAA` and then fails returns the error and
rolls the back buffer's write position back to `0` (and still advances
the sync counter) — but the underlying vector keeps the bytes written by
the failed call (`set_position` does not truncate), and because
`flush_to_stream` writes the whole vector (`buffer.get_ref()`), a
following successful empty-payload send (whose lone frame is the 5 bytes
`ce 00 00 00 00`) plus a flush puts the stray byte `0xAA` of the failed
message on the stream. -/
theorem c10_failed_send_leaks_bytes :
    (SendQueue.new.send [170] (some (CError.other "encode failed"))).2
        = Except.error (CError.other "encode failed")
    ∧ (SendQueue.new.send [170] (some (CError.other "encode failed"))).1.back_buffer.pos
        = SendQueue.new.back_buffer.pos
    ∧ (SendQueue.new.send [170] (some (CError.other "encode failed"))).1.sync = 1
    ∧ (((SendQueue.new.send [170] (some (CError.other "encode failed"))).1.send
          [] none).1.flush_to_stream).2
        = Except.ok [206, 0, 0, 0, 0, 170]
    ∧ frame [] = [206, 0, 0, 0, 0]
    ∧ [206, 0, 0, 0, 0, 170] ≠ ([([] : List Nat)].map frame).flatten :=
  ⟨rfl, rfl, rfl, rfl, rfl, by decide⟩

/-- Claim C2: when a worker hits a fatal error, the `handle_result!`
error branch sets the connection state to `ClosedWithError` carrying the
error's display text, drains the pending-response table completely, and
sends `ClosedWithErr` with that same text to every waiter that was
registered at that moment. -/
theorem c2_fatal_fanout (c : ClientInner) (e : CError) :
    (handleResult c e).1.state = ConnState.closedWithError e.toString
    ∧ (handleResult c e).1.awaitingResponse = []
    ∧ (handleResult c e).2
        = c.awaitingResponse.map
            (fun p => (p.2, CError.closedWithErr e.toString))
    ∧ ∀ m ∈ (handleResult c e).2,
        m.2 = CError.closedWithErr e.toString := by
  refine ⟨rfl, rfl, rfl, ?_⟩
  intro m hm
  simp only [handleResult] at hm
  obtain ⟨p, hp, rfl⟩ := List.mem_map.mp hm
  rfl

/-- Witness for C2: one registered waiter (`7`, under sync `1`) receives
`ClosedWithErr` with the text of the TCP error. -/
theorem c2_fatal_fanout_witness :
    ((7, CError.closedWithErr "tcp stream error: broken pipe")
        ∈ (handleResult
            { state := ConnState.alive, awaitingResponse := [(1, 7)] }
            (CError.tcp "broken pipe")).2)
    ∧ (7, CError.closedWithErr "tcp stream error: broken pipe").2
        = CError.closedWithErr (CError.toString (CError.tcp "broken pipe")) :=
  ⟨by decide,
   (c2_fatal_fanout
      { state := ConnState.alive, awaitingResponse := [(1, 7)] }
      (CError.tcp "broken pipe")).2.2.2 _ (by decide)⟩

/-- Claim C3: dropping the future returned by `Client::send` runs the
on-drop hook, which removes the pending-table entry for its sync (so a
later response finds no waiter) while leaving every other entry intact;
likewise `RecvQueue::recv` removes its freshly inserted `cond_map` entry
for the sync when its wait times out, and fails with the timed-out
error. -/
theorem c3_cancel_cleanup (c : ClientInner) (sync : Nat) (q : RecvQueue)
    (sync2 cond : Nat)
    (h1 : (c.awaitingResponse.map Prod.fst).Nodup)
    (h2 : tblLookup q.condMap sync2 = none) :
    tblLookup (sendOnDrop c sync).awaitingResponse sync = none
    ∧ (∀ k, k ≠ sync →
        tblLookup (sendOnDrop c sync).awaitingResponse k
          = tblLookup c.awaitingResponse k)
    ∧ tblLookup (q.recvTimedOut sync2 cond).1.condMap sync2 = none
    ∧ (q.recvTimedOut sync2 cond).2 = CError.io "timed out" := by
  refine ⟨tblLookup_remove_self _ _ h1,
    fun k hk => tblLookup_remove_ne _ _ _ hk, ?_, rfl⟩
  have hmap : (q.recvTimedOut sync2 cond).1.condMap = q.condMap := by
    simp [RecvQueue.recvTimedOut, tblInsert, tblRemove, List.eraseP_cons]
  rw [hmap]
  exact h2

/-- Witness for C3: the table `[(5, 9)]` after cancelling sync `5`, and
a recv queue `[(2, 4)]` after a timed-out wait on sync `7`. -/
theorem c3_cancel_cleanup_witness :
    ((([(5, 9)] : List (Nat × Nat)).map Prod.fst).Nodup
      ∧ tblLookup [(2, 4)] 7 = none)
    ∧ tblLookup
        (sendOnDrop
          { state := ConnState.alive, awaitingResponse := [(5, 9)] } 5
        ).awaitingResponse 5 = none
    ∧ tblLookup
        (RecvQueue.recvTimedOut { condMap := [(2, 4)] } 7 1).1.condMap 7
        = none :=
  ⟨⟨by decide, by decide⟩,
   (c3_cancel_cleanup
      { state := ConnState.alive, awaitingResponse := [(5, 9)] } 5
      { condMap := [(2, 4)] } 7 1 (by decide) (by decide)).1,
   (c3_cancel_cleanup
      { state := ConnState.alive, awaitingResponse := [(5, 9)] } 5
      { condMap := [(2, 4)] } 7 1 (by decide) (by decide)).2.2.1⟩

/-- Claim C8: when the receiver decodes a frame length prefix equal to
zero, it performs the fatal-error shutdown — the state becomes
`ClosedWithError("unexpected zero message length")`, the pending table is
drained, every registered waiter is sent `ClosedWithErr` with that text —
and the worker exits; it never continues to read a zero-byte frame. -/
theorem c8_zero_length_fatal (c : ClientInner) :
    receiverFirstU32 c (Except.ok 0)
      = RecvStep.exit
          { state :=
              ConnState.closedWithError "unexpected zero message length"
            awaitingResponse := [] }
          (c.awaitingResponse.map
            (fun p =>
              (p.2, CError.closedWithErr "unexpected zero message length"))) :=
  rfl

/-- Claim C9, counterexample: on a connection whose state is
`ClosedManually` — a closed state — `Client::send` does not fail with a
stored close cause: `check_state` hits `unreachable!()` and panics. -/
theorem c9_closed_manually_panics :
    clientSendStart clientManuallyClosed [] 0 = SendStart.panics
    ∧ ∀ e c2, clientSendStart clientManuallyClosed [] 0
        ≠ SendStart.fails e c2 := by
  refine ⟨rfl, ?_⟩
  intro e c2 hcontra
  rw [show clientSendStart clientManuallyClosed [] 0 = SendStart.panics
      from rfl] at hcontra
  exact SendStart.noConfusion hcontra

/-- Claim C9 (amended): every request on a connection in state
`ClosedWithError(err)` fails immediately with `ClosedWithErr(err)`,
returning the client state unchanged — no sync is allocated, no bytes
are appended to the outgoing buffer, no pending-table entry is inserted
and in particular the send never proceeds; on `ClosedManually` the code
instead declares the call unreachable and panics (that state is only
entered once every external client handle is gone). -/
theorem c9_closed_with_error_fails (c : ClientM) (err : String)
    (reqBytes : List Nat) (tx : Nat)
    (h : c.state = ConnState.closedWithError err) :
    clientSendStart c reqBytes tx = SendStart.fails (CError.closedWithErr err) c
    ∧ ∀ c2 sync, clientSendStart c reqBytes tx ≠ SendStart.proceeds c2 sync := by
  have he : clientSendStart c reqBytes tx
      = SendStart.fails (CError.closedWithErr err) c := by
    simp [clientSendStart, h]
  refine ⟨he, ?_⟩
  intro c2 sync hcontra
  rw [he] at hcontra
  exact SendStart.noConfusion hcontra

/-- Witness for C9 on the concrete client closed with error "boom". -/
theorem c9_closed_with_error_fails_witness :
    clientErrClosed.state = ConnState.closedWithError "boom"
    ∧ clientSendStart clientErrClosed [] 0
        = SendStart.fails (CError.closedWithErr "boom") clientErrClosed :=
  ⟨rfl, (c9_closed_with_error_fails clientErrClosed "boom" [] 0 rfl).1⟩
